import Mathlib

/-!
Shallow embedding of the wayscope profile-resolution core
(src/profile.rs, src/config.rs, src/command.rs).

Rust HashMaps are modelled as association lists with unique keys: inserting
replaces any earlier binding of the key, removal filters the key out, and the
final ordered views are produced by sorting on keys.  Rust compares Strings
byte-wise on their UTF-8 encoding, which coincides with lexicographic order on
unicode scalar values; strLe below implements that order on Char lists.
-/

deriving instance DecidableEq for Except

/-- Lexicographic strict order on char lists (Rust byte-wise String order). -/
def charsLt : List Char → List Char → Bool
  | _, [] => false
  | [], _ :: _ => true
  | a :: as, b :: bs => decide (a < b) || (a == b && charsLt as bs)

/-- Strict string order, as Rust String cmp == Less. -/
def strLt (a b : String) : Bool :=
  charsLt a.data b.data

/-- Non-strict string order, as Rust String cmp != Greater. -/
def strLe (a b : String) : Bool :=
  strLt a b || a == b

/-- Stable sort of key-value pairs by key, as the Rust sort_by on the key. -/
def sortPairs {α : Type} (l : List (String × α)) : List (String × α) :=
  List.insertionSort (fun a b => strLe a.1 b.1 = true) l

/-- The key list of an association list. -/
def keys {α : Type} (l : List (String × α)) : List String :=
  l.map Prod.fst

/-- HashMap::remove on the association-list model. -/
def removeKV {α : Type} (m : List (String × α)) (k : String) : List (String × α) :=
  m.filter (fun p => p.1 != k)

/-- HashMap::insert on the association-list model: replaces any old binding. -/
def insertKV {α : Type} (m : List (String × α)) (k : String) (v : α) : List (String × α) :=
  (k, v) :: removeKV m k

/-- src/profile.rs BASE_ENV. -/
def BASE_ENV : List (String × String) :=
  [("AMD_VULKAN_ICD", "RADV"),
   ("DISABLE_LAYER_AMD_SWITCHABLE_GRAPHICS_1", "1"),
   ("DISABLE_LAYER_NV_OPTIMUS_1", "1"),
   ("GAMESCOPE_WAYLAND_DISPLAY", "gamescope-0"),
   ("PROTON_ADD_CONFIG", "sdlinput,wayland,hdr"),
   ("PROTON_ENABLE_WAYLAND", "1"),
   ("RADV_PERFTEST", "aco"),
   ("SDL_VIDEODRIVER", "wayland")]

/-- src/config.rs OptionValue. -/
inductive OptionValue : Type
  | Bool : Bool → OptionValue
  | Int : Int → OptionValue
  | String : String → OptionValue
deriving DecidableEq, Repr

/-- Display for OptionValue, as the Rust Display impl. -/
def optValueToString : OptionValue → String
  | OptionValue.Bool b => toString b
  | OptionValue.Int i => toString i
  | OptionValue.String s => s

/-- src/config.rs EnvValue. -/
inductive EnvValue : Type
  | Int : Int → EnvValue
  | String : String → EnvValue
deriving DecidableEq, Repr

/-- Display for EnvValue, as the Rust Display impl. -/
def envValueToString : EnvValue → String
  | EnvValue.Int i => toString i
  | EnvValue.String s => s

/-- src/config.rs MonitorDef. -/
structure MonitorDef : Type where
  width : Nat
  height : Nat
  refreshRate : Nat
  vrr : Bool
  hdr : Bool
  primary : Bool
deriving DecidableEq, Repr

/-- src/config.rs ProfileDef (use_hdr and use_wsi are the useHDR/useWSI fields). -/
structure ProfileDef : Type where
  monitor : Option String
  binary : String
  use_hdr : Option Bool
  use_wsi : Option Bool
  options : List (String × OptionValue)
  environment : List (String × EnvValue)
  unset : List String
deriving DecidableEq, Repr

/-- src/profile.rs ResolvedProfile. -/
structure ResolvedProfile : Type where
  name : String
  monitor_name : String
  binary : String
  use_hdr : Bool
  use_wsi : Bool
  options : List (String × OptionValue)
  user_env : List (String × String)
  unset_vars : List String
deriving DecidableEq, Repr

/-- src/profile.rs ResolvedProfile::environment: base vars, then user vars,
then conditional WSI/HDR vars, then unset removals, sorted by name. -/
def ResolvedProfile.environment (p : ResolvedProfile) : List (String × String) :=
  let env := BASE_ENV
  let env := p.user_env.foldl (fun acc kv => insertKV acc kv.1 kv.2) env
  let env := if p.use_wsi then insertKV env "ENABLE_GAMESCOPE_WSI" "1" else env
  let env := if p.use_hdr then
      insertKV (insertKV (insertKV env "DXVK_HDR" "1") "ENABLE_HDR_WSI" "1")
        "PROTON_ENABLE_HDR" "1"
    else env
  let env := p.unset_vars.foldl (fun acc n => removeKV acc n) env
  sortPairs env

/-- src/profile.rs ResolvedProfile::needs_hdr_workaround. -/
def ResolvedProfile.needs_hdr_workaround (p : ResolvedProfile) : Bool :=
  let backend := ((List.lookup "backend" p.options).map optValueToString).getD ""
  backend == "wayland" && p.use_wsi && p.use_hdr

/-- src/config.rs MonitorsConfig. -/
structure MonitorsConfig : Type where
  monitors : List (String × MonitorDef)
deriving DecidableEq, Repr

/-- src/config.rs MonitorsConfig::get. -/
def MonitorsConfig.get (c : MonitorsConfig) (name : String) : Except String MonitorDef :=
  match List.lookup name c.monitors with
  | some m => Except.ok m
  | none => Except.error ("Unknown monitor \x27" ++ name ++ "\x27")

/-- src/config.rs MonitorsConfig::default_monitor: first monitor flagged primary. -/
def MonitorsConfig.default_monitor (c : MonitorsConfig) :
    Except String (String × MonitorDef) :=
  match c.monitors.find? (fun p => p.2.primary) with
  | some nm => Except.ok nm
  | none => Except.error "No primary monitor. Set \x27primary: true\x27 on one monitor."

/-- src/config.rs ProfilesConfig. -/
structure ProfilesConfig : Type where
  profiles : List (String × ProfileDef)
deriving DecidableEq, Repr

/-- src/config.rs ProfilesConfig::get. -/
def ProfilesConfig.get (c : ProfilesConfig) (name : String) : Except String ProfileDef :=
  match List.lookup name c.profiles with
  | some p => Except.ok p
  | none => Except.error ("Unknown profile \x27" ++ name ++ "\x27")

/-- src/config.rs ProfilesConfig::names: all profile names, sorted. -/
def ProfilesConfig.names (c : ProfilesConfig) : List String :=
  List.insertionSort (fun a b => strLe a b = true) (c.profiles.map Prod.fst)

/-- src/config.rs is_valid_env_var_name. -/
def is_valid_env_var_name (name : String) : Bool :=
  match name.data with
  | [] => false
  | c :: rest =>
      (c.isAlpha || c == '_') && rest.all (fun ch => ch.isAlphanum || ch == '_')

/-- The invalid-name list accumulated by src/config.rs validate_env_var_names. -/
def invalidEntries (env_keys : List String) (unset_vars : List String) : List String :=
  let invalid := env_keys.foldl (fun acc name =>
    if is_valid_env_var_name name then acc
    else acc ++ ["environment key \x27" ++ name ++ "\x27"]) []
  unset_vars.foldl (fun acc name =>
    if is_valid_env_var_name name then acc
    else acc ++ ["unset entry \x27" ++ name ++ "\x27"]) invalid

/-- src/config.rs validate_env_var_names. -/
def validate_env_var_names (profile_name : String) (env_keys : List String)
    (unset_vars : List String) : Except String Unit :=
  let invalid := invalidEntries env_keys unset_vars
  if invalid.isEmpty then Except.ok ()
  else Except.error ("Profile \x27" ++ profile_name
    ++ "\x27: invalid environment variable names: " ++ String.intercalate ", " invalid)

/-- src/config.rs base_options: gamescope defaults derived from monitor specs. -/
def base_options (monitor : MonitorDef) : List (String × OptionValue) :=
  let opts : List (String × OptionValue) := []
  let opts := insertKV opts "backend" (OptionValue.String "sdl")
  let opts := insertKV opts "fade-out-duration" (OptionValue.Int 200)
  let opts := insertKV opts "fullscreen" (OptionValue.Bool true)
  let opts := insertKV opts "immediate-flips" (OptionValue.Bool true)
  let opts := insertKV opts "nested-refresh" (OptionValue.Int (Int.ofNat monitor.refreshRate))
  let opts := insertKV opts "output-height" (OptionValue.Int (Int.ofNat monitor.height))
  let opts := insertKV opts "output-width" (OptionValue.Int (Int.ofNat monitor.width))
  let opts := insertKV opts "rt" (OptionValue.Bool true)
  let opts := if monitor.vrr then insertKV opts "adaptive-sync" (OptionValue.Bool true) else opts
  opts

/-- src/config.rs Config. -/
structure Config : Type where
  monitors : MonitorsConfig
  profiles : ProfilesConfig
deriving DecidableEq, Repr

/-- The monitor selection step of src/config.rs Config::resolve_profile:
the profile's named monitor if given, else the default (primary) monitor. -/
def Config.resolved_monitor (c : Config) (profile : ProfileDef) :
    Except String (String × MonitorDef) :=
  match profile.monitor with
  | some n => (c.monitors.get n).map (fun m => (n, m))
  | none => c.monitors.default_monitor

/-- src/config.rs Config::resolve_profile. -/
def Config.resolve_profile (c : Config) (name : String) : Except String ResolvedProfile :=
  match c.profiles.get name with
  | Except.error e => Except.error e
  | Except.ok profile =>
    match c.resolved_monitor profile with
    | Except.error e => Except.error e
    | Except.ok (monitor_name, monitor) =>
        Except.ok
          { name := name
            monitor_name := monitor_name
            binary := profile.binary
            use_hdr := profile.use_hdr.getD monitor.hdr
            use_wsi := profile.use_wsi.getD true
            options := profile.options.foldl
              (fun o kv => insertKV o kv.1 kv.2) (base_options monitor)
            user_env := profile.environment.map (fun kv => (kv.1, envValueToString kv.2))
            unset_vars := profile.unset }

/-- The one-line summary format of src/config.rs Config::list_profiles. -/
def profileSummary (p : ResolvedProfile) : String :=
  "monitor=" ++ p.monitor_name ++ " HDR=" ++ toString p.use_hdr
    ++ " WSI=" ++ toString p.use_wsi

/-- src/config.rs Config::list_profiles: sorted names, successfully resolved
profiles mapped to (name, summary) pairs, failures dropped by filter_map. -/
def Config.list_profiles (c : Config) : List (String × String) :=
  c.profiles.names.filterMap (fun name =>
    match c.resolve_profile name with
    | Except.ok p => some (p.name, profileSummary p)
    | Except.error _ => none)

/-- src/command.rs GamescopeCommand. -/
structure GamescopeCommand : Type where
  binary : String
  args : List String
  env : List (String × String)
  unset : List String
  child : List String
  needs_workaround : Bool
deriving DecidableEq, Repr

/-- src/command.rs build_args: sorted options, Bool(true) emits a flag,
Bool(false) nothing, Int/String a flag plus value token. -/
def build_args (p : ResolvedProfile) : List String :=
  let sorted_opts := sortPairs p.options
  sorted_opts.foldl (fun args kv =>
    match kv.2 with
    | OptionValue.Bool true => args ++ ["--" ++ kv.1]
    | OptionValue.Bool false => args
    | OptionValue.Int n => args ++ ["--" ++ kv.1, toString n]
    | OptionValue.String s => args ++ ["--" ++ kv.1, s]) []

/-- src/command.rs build. -/
def build (profile : ResolvedProfile) (child_cmd : List String) : GamescopeCommand :=
  let args := build_args profile
  let args := if profile.use_hdr then
      args ++ ["--hdr-enabled", "--hdr-debug-force-output", "--hdr-debug-force-support"]
    else args
  { binary := profile.binary
    args := args
    env := profile.environment
    unset := profile.unset_vars
    child := child_cmd
    needs_workaround := profile.needs_hdr_workaround }

/-- Modelled from the spec (claim statement): the HDR flag tokens appended by build. -/
def hdrFlags : List String :=
  ["--hdr-enabled", "--hdr-debug-force-output", "--hdr-debug-force-support"]

/-- Modelled from the spec (claim statement): per-option token emission. -/
def argTokens : String × OptionValue → List String
  | (key, OptionValue.Bool true) => ["--" ++ key]
  | (_, OptionValue.Bool false) => []
  | (key, OptionValue.Int n) => ["--" ++ key, toString n]
  | (key, OptionValue.String s) => ["--" ++ key, s]

/-- Modelled from the spec (claim statement): a valid environment variable name is
non-empty, starts with an ASCII letter or underscore, and continues with ASCII
letters, digits or underscores. -/
def SpecValidEnvName (n : String) : Prop :=
  ∃ c cs, n.data = c :: cs
    ∧ (('A' ≤ c ∧ c ≤ 'Z') ∨ ('a' ≤ c ∧ c ≤ 'z') ∨ c = '_')
    ∧ ∀ ch ∈ cs,
        ('A' ≤ ch ∧ ch ≤ 'Z') ∨ ('a' ≤ ch ∧ ch ≤ 'z') ∨ ('0' ≤ ch ∧ ch ≤ '9') ∨ ch = '_'

/-- The eight monitor-independent base option keys (claim statement). -/
def baseOptionKeys : List String :=
  ["backend", "fade-out-duration", "fullscreen", "immediate-flips",
   "nested-refresh", "output-height", "output-width", "rt"]

/-- Fixture: profile with empty user environment, no unsets, HDR and WSI off. -/
def pC1 : ResolvedProfile :=
  { name := "t", monitor_name := "main", binary := "gamescope",
    use_hdr := false, use_wsi := false,
    options := [], user_env := [], unset_vars := [] }

/-- Fixture: the option map of the argument-derivation example. -/
def exampleC4 : ResolvedProfile :=
  { name := "t", monitor_name := "main", binary := "gamescope",
    use_hdr := false, use_wsi := false,
    options := [("a", OptionValue.Bool true), ("b", OptionValue.Bool false),
                ("c", OptionValue.Int 5), ("d", OptionValue.String "x")],
    user_env := [], unset_vars := [] }

/-- Fixture: same options with use_hdr on. -/
def exampleC4hdr : ResolvedProfile :=
  { name := "t", monitor_name := "main", binary := "gamescope",
    use_hdr := true, use_wsi := false,
    options := [("a", OptionValue.Bool true), ("b", OptionValue.Bool false),
                ("c", OptionValue.Int 5), ("d", OptionValue.String "x")],
    user_env := [], unset_vars := [] }

/-- Fixture monitor. -/
def mW : MonitorDef :=
  { width := 1920, height := 1080, refreshRate := 60, vrr := false, hdr := true,
    primary := true }

/-- Fixture profile definition leaving everything to defaults. -/
def dW : ProfileDef :=
  { monitor := none, binary := "gamescope", use_hdr := none, use_wsi := none,
    options := [], environment := [], unset := [] }

/-- Fixture configuration with one monitor and one profile. -/
def cfgW : Config :=
  { monitors := { monitors := [("main", mW)] },
    profiles := { profiles := [("p", dW)] } }

/-- The resolved form of profile p of cfgW. -/
def pW : ResolvedProfile :=
  { name := "p", monitor_name := "main", binary := "gamescope",
    use_hdr := true, use_wsi := true,
    options := [("rt", OptionValue.Bool true), ("output-width", OptionValue.Int 1920),
                ("output-height", OptionValue.Int 1080),
                ("nested-refresh", OptionValue.Int 60),
                ("immediate-flips", OptionValue.Bool true),
                ("fullscreen", OptionValue.Bool true),
                ("fade-out-duration", OptionValue.Int 200),
                ("backend", OptionValue.String "sdl")],
    user_env := [], unset_vars := [] }

/-- Fixture configuration with no monitors: its only profile cannot resolve. -/
def cfgBad : Config :=
  { monitors := { monitors := [] }, profiles := { profiles := [("p", dW)] } }

/-- Fixture: profile that unsets a base variable and an HDR variable. -/
def pUnset : ResolvedProfile :=
  { name := "t", monitor_name := "main", binary := "gamescope",
    use_hdr := true, use_wsi := false,
    options := [], user_env := [], unset_vars := ["SDL_VIDEODRIVER", "DXVK_HDR"] }

/-- Fixture: user environment overrides a base variable, which is also unset. -/
def pC10bad : ResolvedProfile :=
  { name := "t", monitor_name := "main", binary := "gamescope",
    use_hdr := false, use_wsi := false,
    options := [], user_env := [("SDL_VIDEODRIVER", "x")],
    unset_vars := ["SDL_VIDEODRIVER"] }

/-- Fixture: user environment overrides a base variable, nothing unset. -/
def pC10w : ResolvedProfile :=
  { name := "t", monitor_name := "main", binary := "gamescope",
    use_hdr := false, use_wsi := false,
    options := [], user_env := [("SDL_VIDEODRIVER", "custom")], unset_vars := [] }

/-!  Lemmas about the string order. -/

theorem charsLt_irrefl (as : List Char) : charsLt as as = false := by
  induction as with
  | nil => rfl
  | cons a as ih => simp [charsLt, ih, lt_irrefl]

theorem charsLt_trans : ∀ {as bs cs : List Char},
    charsLt as bs = true → charsLt bs cs = true → charsLt as cs = true := by
  intro as
  induction as with
  | nil =>
    intro bs cs h1 h2
    cases bs with
    | nil => simp [charsLt] at h1
    | cons b bs =>
      cases cs with
      | nil => simp [charsLt] at h2
      | cons c cs => simp [charsLt]
  | cons a as ih =>
    intro bs cs h1 h2
    cases bs with
    | nil => simp [charsLt] at h1
    | cons b bs =>
      cases cs with
      | nil => simp [charsLt] at h2
      | cons c cs =>
        simp only [charsLt, Bool.or_eq_true, Bool.and_eq_true, decide_eq_true_eq,
          beq_iff_eq] at h1 h2 ⊢
        rcases h1 with h1 | ⟨rfl, h1⟩
        · rcases h2 with h2 | ⟨rfl, h2⟩
          · exact Or.inl (lt_trans h1 h2)
          · exact Or.inl h1
        · rcases h2 with h2 | ⟨rfl, h2⟩
          · exact Or.inl h2
          · exact Or.inr ⟨rfl, ih h1 h2⟩

theorem charsLt_total (as : List Char) : ∀ bs : List Char,
    charsLt as bs = true ∨ charsLt bs as = true ∨ as = bs := by
  induction as with
  | nil =>
    intro bs
    cases bs with
    | nil => exact Or.inr (Or.inr rfl)
    | cons b bs => exact Or.inl (by simp [charsLt])
  | cons a as ih =>
    intro bs
    cases bs with
    | nil => exact Or.inr (Or.inl (by simp [charsLt]))
    | cons b bs =>
      rcases lt_trichotomy a b with h | rfl | h
      · exact Or.inl (by simp [charsLt, h])
      · rcases ih bs with h | h | rfl
        · exact Or.inl (by simp [charsLt, h])
        · exact Or.inr (Or.inl (by simp [charsLt, h]))
        · exact Or.inr (Or.inr rfl)
      · exact Or.inr (Or.inl (by simp [charsLt, h]))

theorem string_eq_of_data_eq {a b : String} (h : a.data = b.data) : a = b := by
  cases a
  cases b
  exact congrArg String.mk h

theorem strLt_ne {a b : String} (h : strLt a b = true) : a ≠ b := by
  intro hab
  subst hab
  rw [strLt, charsLt_irrefl] at h
  exact Bool.false_ne_true h

theorem strLe_total (a b : String) : strLe a b = true ∨ strLe b a = true := by
  rcases charsLt_total a.data b.data with h | h | h
  · exact Or.inl (by simp [strLe, strLt, h])
  · exact Or.inr (by simp [strLe, strLt, h])
  · exact Or.inl (by simp [strLe, string_eq_of_data_eq h])

theorem strLe_trans : ∀ {a b c : String},
    strLe a b = true → strLe b c = true → strLe a c = true := by
  intro a b c h1 h2
  simp only [strLe, Bool.or_eq_true, beq_iff_eq] at h1 h2 ⊢
  rcases h1 with h1 | rfl
  · rcases h2 with h2 | rfl
    · exact Or.inl (charsLt_trans h1 h2)
    · exact Or.inl h1
  · exact h2

theorem strLt_of_strLe_of_ne {a b : String} (h : strLe a b = true) (hne : a ≠ b) :
    strLt a b = true := by
  rcases Bool.or_eq_true .. |>.mp h with h | h
  · exact h
  · exact absurd (beq_iff_eq .. |>.mp h) hne

instance : IsTotal String (fun a b => strLe a b = true) :=
  ⟨strLe_total⟩

instance : IsTrans String (fun a b => strLe a b = true) :=
  ⟨fun _ _ _ => strLe_trans⟩

instance {α : Type} : IsTotal (String × α) (fun a b => strLe a.1 b.1 = true) :=
  ⟨fun a b => strLe_total a.1 b.1⟩

instance {α : Type} : IsTrans (String × α) (fun a b => strLe a.1 b.1 = true) :=
  ⟨fun _ _ _ h1 h2 => strLe_trans h1 h2⟩

theorem sortPairs_perm {α : Type} (l : List (String × α)) : (sortPairs l).Perm l :=
  List.perm_insertionSort _ l

theorem sortPairs_sorted {α : Type} (l : List (String × α)) :
    List.Sorted (fun a b => strLe a.1 b.1 = true) (sortPairs l) :=
  List.sorted_insertionSort _ l

theorem names_sorted (c : ProfilesConfig) :
    List.Sorted (fun a b => strLe a b = true) c.names :=
  List.sorted_insertionSort _ _

theorem names_perm (c : ProfilesConfig) : c.names.Perm (c.profiles.map Prod.fst) :=
  List.perm_insertionSort _ _

/-!  Lemmas about the association-list map model. -/

theorem mem_removeKV {α : Type} {m : List (String × α)} {k : String} {q : String × α} :
    q ∈ removeKV m k ↔ q ∈ m ∧ q.1 ≠ k := by
  simp [removeKV, List.mem_filter, bne_iff_ne]

theorem removeKV_sublist {α : Type} (m : List (String × α)) (k : String) :
    (removeKV m k).Sublist m :=
  List.filter_sublist m

theorem nodupKeys_removeKV {α : Type} {m : List (String × α)} (k : String)
    (h : (keys m).Nodup) : (keys (removeKV m k)).Nodup :=
  ((removeKV_sublist m k).map Prod.fst).nodup h

theorem key_not_mem_keys_removeKV {α : Type} (m : List (String × α)) (k : String) :
    k ∉ keys (removeKV m k) := by
  intro hk
  rcases List.mem_map.mp hk with ⟨q, hq, hq1⟩
  exact (mem_removeKV.mp hq).2 hq1

theorem nodupKeys_insertKV {α : Type} {m : List (String × α)} (k : String) (v : α)
    (h : (keys m).Nodup) : (keys (insertKV m k v)).Nodup := by
  refine List.Nodup.cons ?_ (nodupKeys_removeKV k h)
  exact key_not_mem_keys_removeKV m k

theorem mem_insertKV_self {α : Type} (m : List (String × α)) (k : String) (v : α) :
    (k, v) ∈ insertKV m k v :=
  List.mem_cons_self _ _

theorem mem_insertKV_of_ne {α : Type} {m : List (String × α)} {n k : String} {v : α}
    (w : α) (hmem : (n, v) ∈ m) (hne : n ≠ k) : (n, v) ∈ insertKV m k w :=
  List.mem_cons_of_mem _ (mem_removeKV.mpr ⟨hmem, hne⟩)

theorem mem_unique_of_nodupKeys {α : Type} : ∀ {m : List (String × α)} {n : String}
    {v w : α}, (keys m).Nodup → (n, v) ∈ m → (n, w) ∈ m → v = w := by
  intro m
  induction m with
  | nil => intro n v w _ h; simp at h
  | cons q rest ih =>
    obtain ⟨a, b⟩ := q
    intro n v w hnd hv hw
    have hnd2 : (∀ x : α, (a, x) ∉ rest) ∧ (List.map Prod.fst rest).Nodup := by
      simpa [keys] using hnd
    rcases List.mem_cons.mp hv with hv | hv <;> rcases List.mem_cons.mp hw with hw | hw
    · rw [Prod.mk.injEq] at hv hw
      rw [hv.2, hw.2]
    · exfalso
      rw [Prod.mk.injEq] at hv
      exact hnd2.1 w (hv.1 ▸ hw)
    · exfalso
      rw [Prod.mk.injEq] at hw
      exact hnd2.1 v (hw.1 ▸ hv)
    · exact ih hnd2.2 hv hw

theorem nodupKeys_foldl_insert {α : Type} : ∀ (l : List (String × α))
    {m : List (String × α)}, (keys m).Nodup →
    (keys (l.foldl (fun acc kv => insertKV acc kv.1 kv.2) m)).Nodup := by
  intro l
  induction l with
  | nil => intro m h; exact h
  | cons kv rest ih =>
    intro m h
    exact ih (nodupKeys_insertKV kv.1 kv.2 h)

theorem nodupKeys_foldl_remove {α : Type} : ∀ (l : List String)
    {m : List (String × α)}, (keys m).Nodup →
    (keys (l.foldl (fun acc n => removeKV acc n) m)).Nodup := by
  intro l
  induction l with
  | nil => intro m h; exact h
  | cons k rest ih =>
    intro m h
    exact ih (nodupKeys_removeKV k h)

theorem absent_removeKV {α : Type} {m : List (String × α)} {n : String} (k : String)
    (h : ∀ v, (n, v) ∉ m) : ∀ v, (n, v) ∉ removeKV m k := by
  intro v hv
  exact h v (mem_removeKV.mp hv).1

theorem absent_foldl_remove {α : Type} : ∀ (l : List String) {m : List (String × α)}
    {n : String}, (∀ v, (n, v) ∉ m) →
    ∀ v, (n, v) ∉ l.foldl (fun acc k => removeKV acc k) m := by
  intro l
  induction l with
  | nil => intro m n h; exact h
  | cons k rest ih =>
    intro m n h
    exact ih (absent_removeKV k h)

theorem key_absent_removeKV_self {α : Type} (m : List (String × α)) (n : String) :
    ∀ v, (n, v) ∉ removeKV m n := by
  intro v hv
  exact (mem_removeKV.mp hv).2 rfl

theorem not_mem_foldl_remove_of_mem {α : Type} : ∀ {l : List String}
    {m : List (String × α)} {n : String}, n ∈ l →
    ∀ v, (n, v) ∉ l.foldl (fun acc k => removeKV acc k) m := by
  intro l
  induction l with
  | nil => intro m n h; simp at h
  | cons k rest ih =>
    intro m n h
    rcases List.mem_cons.mp h with rfl | h
    · exact absent_foldl_remove rest (key_absent_removeKV_self m n)
    · exact ih h

theorem mem_foldl_remove_of_not_mem {α : Type} : ∀ {l : List String}
    {m : List (String × α)} {n : String} {v : α}, n ∉ l → (n, v) ∈ m →
    (n, v) ∈ l.foldl (fun acc k => removeKV acc k) m := by
  intro l
  induction l with
  | nil => intro m n v _ h; exact h
  | cons k rest ih =>
    intro m n v hn h
    have hnk : n ≠ k := fun hh => hn (hh ▸ List.mem_cons_self k rest)
    have hrest : n ∉ rest := fun hh => hn (List.mem_cons_of_mem _ hh)
    exact ih hrest (mem_removeKV.mpr ⟨h, hnk⟩)

theorem mem_foldl_insert_of_not_key {α : Type} : ∀ {l : List (String × α)}
    {m : List (String × α)} {n : String} {v : α}, n ∉ keys l → (n, v) ∈ m →
    (n, v) ∈ l.foldl (fun acc kv => insertKV acc kv.1 kv.2) m := by
  intro l
  induction l with
  | nil => intro m n v _ h; exact h
  | cons kv rest ih =>
    intro m n v hn h
    have hnk : n ≠ kv.1 := fun hh => hn (by simp [keys, hh])
    have hrest : n ∉ keys rest := fun hh => hn (by simp [keys] at hh ⊢; exact Or.inr hh)
    exact ih hrest (mem_insertKV_of_ne kv.2 h hnk)

theorem mem_foldl_insert_of_mem {α : Type} : ∀ {l : List (String × α)}
    {m : List (String × α)} {n : String} {v : α}, (keys l).Nodup → (n, v) ∈ l →
    (n, v) ∈ l.foldl (fun acc kv => insertKV acc kv.1 kv.2) m := by
  intro l
  induction l with
  | nil => intro m n v _ h; simp at h
  | cons kv rest ih =>
    intro m n v hnd h
    have hnd1 : kv.1 ∉ keys rest := (List.nodup_cons.mp (by simpa [keys] using hnd)).1
    have hnd2 : (keys rest).Nodup := (List.nodup_cons.mp (by simpa [keys] using hnd)).2
    rw [List.foldl_cons]
    rcases List.mem_cons.mp h with h | h
    · subst h
      exact mem_foldl_insert_of_not_key (l := rest) hnd1 (mem_insertKV_self m n v)
    · exact ih hnd2 h

theorem key_present_insertKV {α : Type} {m : List (String × α)} {k0 : String}
    (k : String) (v : α) (h : ∃ v0, (k0, v0) ∈ m) :
    ∃ v0, (k0, v0) ∈ insertKV m k v := by
  by_cases hk : k0 = k
  · subst hk
    exact ⟨v, mem_insertKV_self m k0 v⟩
  · rcases h with ⟨v0, hv0⟩
    exact ⟨v0, mem_insertKV_of_ne v hv0 hk⟩

theorem key_present_foldl_insert {α : Type} : ∀ (l : List (String × α))
    {m : List (String × α)} {k0 : String}, (∃ v0, (k0, v0) ∈ m) →
    ∃ v0, (k0, v0) ∈ l.foldl (fun acc kv => insertKV acc kv.1 kv.2) m := by
  intro l
  induction l with
  | nil => intro m k0 h; exact h
  | cons kv rest ih =>
    intro m k0 h
    exact ih (key_present_insertKV kv.1 kv.2 h)

theorem lookup_isSome_of_mem {α : Type} : ∀ {m : List (String × α)} {k : String}
    {v : α}, (k, v) ∈ m → (List.lookup k m).isSome = true := by
  intro m
  induction m with
  | nil => intro k v h; simp at h
  | cons q rest ih =>
    obtain ⟨a, b⟩ := q
    intro k v h
    rw [List.lookup_cons]
    cases h2 : (k == a) with
    | true =>
      rfl
    | false =>
      have hka : k ≠ a := by simpa using h2
      rcases List.mem_cons.mp h with h | h
      · exact absurd (congrArg Prod.fst h) hka
      · exact ih h

theorem mem_of_lookup {α : Type} : ∀ {m : List (String × α)} {k : String} {v : α},
    List.lookup k m = some v → (k, v) ∈ m := by
  intro m
  induction m with
  | nil => intro k v h; simp [List.lookup] at h
  | cons q rest ih =>
    obtain ⟨a, b⟩ := q
    intro k v h
    rw [List.lookup_cons] at h
    cases h2 : (k == a) with
    | true =>
      rw [h2] at h
      have hb : b = v := by simpa using h
      have hka : k = a := by simpa using h2
      rw [hka, ← hb]
      exact List.mem_cons_self _ _
    | false =>
      rw [h2] at h
      exact List.mem_cons_of_mem _ (ih h)

/-!  Inversion lemmas for profile resolution. -/

theorem resolved_monitor_mem {c : Config} {d : ProfileDef} {mn : String}
    {m : MonitorDef} (h : c.resolved_monitor d = Except.ok (mn, m)) :
    (mn, m) ∈ c.monitors.monitors := by
  unfold Config.resolved_monitor at h
  cases hd : d.monitor with
  | some n =>
    simp only [hd] at h
    unfold MonitorsConfig.get at h
    cases hlk : List.lookup n c.monitors.monitors with
    | none => simp [hlk, Except.map] at h
    | some mm =>
      simp only [hlk, Except.map, Except.ok.injEq, Prod.mk.injEq] at h
      rw [← h.1, ← h.2]
      exact mem_of_lookup hlk
  | none =>
    simp only [hd] at h
    unfold MonitorsConfig.default_monitor at h
    cases hf : c.monitors.monitors.find? (fun q => q.2.primary) with
    | none => simp [hf] at h
    | some q =>
      simp only [hf, Except.ok.injEq] at h
      rw [← h]
      exact List.mem_of_find?_eq_some hf

theorem resolve_profile_ok {c : Config} {nm : String} {p : ResolvedProfile}
    (hres : c.resolve_profile nm = Except.ok p) :
    ∃ d mn m, c.profiles.get nm = Except.ok d
      ∧ c.resolved_monitor d = Except.ok (mn, m)
      ∧ p = { name := nm, monitor_name := mn, binary := d.binary,
              use_hdr := d.use_hdr.getD m.hdr,
              use_wsi := d.use_wsi.getD true,
              options := d.options.foldl (fun o kv => insertKV o kv.1 kv.2)
                (base_options m),
              user_env := d.environment.map (fun kv => (kv.1, envValueToString kv.2)),
              unset_vars := d.unset } := by
  unfold Config.resolve_profile at hres
  cases hg : c.profiles.get nm with
  | error e => simp [hg] at hres
  | ok d =>
    simp only [hg] at hres
    cases hmon : c.resolved_monitor d with
    | error e => simp [hmon] at hres
    | ok nm2 =>
      obtain ⟨mn, m⟩ := nm2
      simp only [hmon, Except.ok.injEq] at hres
      exact ⟨d, mn, m, rfl, hmon, hres.symm⟩

theorem base_key_lookup (m : MonitorDef) (k : String) (hk : k ∈ baseOptionKeys) :
    (List.lookup k (base_options m)).isSome = true := by
  obtain ⟨w, h, r, vrr, hdr, prim⟩ := m
  cases vrr <;> fin_cases hk <;> rfl

/-!  Helper lemmas for validation, argument building, and listing. -/

theorem mem_foldl_collect (p : String → Bool) (fmt : String → String) :
    ∀ (l : List String) (acc : List String) (s : String),
      s ∈ l.foldl (fun acc2 name => if p name then acc2 else acc2 ++ [fmt name]) acc ↔
        s ∈ acc ∨ ∃ k, k ∈ l ∧ p k = false ∧ s = fmt k := by
  intro l
  induction l with
  | nil => intro acc s; simp
  | cons a l ih =>
    intro acc s
    rw [List.foldl_cons]
    cases hp : p a with
    | true =>
      rw [ih]
      constructor
      · rintro (h | ⟨k, hk, hk2, hk3⟩)
        · exact Or.inl h
        · exact Or.inr ⟨k, List.mem_cons_of_mem _ hk, hk2, hk3⟩
      · rintro (h | ⟨k, hk, hk2, hk3⟩)
        · exact Or.inl h
        · rcases List.mem_cons.mp hk with rfl | hk
          · simp [hp] at hk2
          · exact Or.inr ⟨k, hk, hk2, hk3⟩
    | false =>
      rw [ih]
      constructor
      · rintro (h | ⟨k, hk, hk2, hk3⟩)
        · rcases List.mem_append.mp h with h | h
          · exact Or.inl h
          · rcases List.mem_singleton.mp h with rfl
            exact Or.inr ⟨a, List.mem_cons_self a l, hp, rfl⟩
        · exact Or.inr ⟨k, List.mem_cons_of_mem _ hk, hk2, hk3⟩
      · rintro (h | ⟨k, hk, hk2, hk3⟩)
        · exact Or.inl (List.mem_append.mpr (Or.inl h))
        · rcases List.mem_cons.mp hk with rfl | hk
          · exact Or.inl (List.mem_append.mpr (Or.inr (by simp [hk3])))
          · exact Or.inr ⟨k, hk, hk2, hk3⟩

theorem mem_invalidEntries (env_keys unset_vars : List String) (s : String) :
    s ∈ invalidEntries env_keys unset_vars ↔
      (∃ k, k ∈ env_keys ∧ is_valid_env_var_name k = false
          ∧ s = "environment key \x27" ++ k ++ "\x27")
      ∨ (∃ u, u ∈ unset_vars ∧ is_valid_env_var_name u = false
          ∧ s = "unset entry \x27" ++ u ++ "\x27") := by
  unfold invalidEntries
  rw [mem_foldl_collect is_valid_env_var_name
    (fun name => "unset entry \x27" ++ name ++ "\x27"),
    mem_foldl_collect is_valid_env_var_name
    (fun name => "environment key \x27" ++ name ++ "\x27")]
  simp [or_comm]

theorem validate_ok_iff (pn : String) (env_keys unset_vars : List String) :
    validate_env_var_names pn env_keys unset_vars = Except.ok () ↔
      (∀ k ∈ env_keys, is_valid_env_var_name k = true)
      ∧ (∀ u ∈ unset_vars, is_valid_env_var_name u = true) := by
  unfold validate_env_var_names
  cases he : (invalidEntries env_keys unset_vars).isEmpty with
  | true =>
    have hnil : invalidEntries env_keys unset_vars = [] := by
      rwa [List.isEmpty_iff] at he
    simp only [he, if_true]
    constructor
    · intro _
      constructor
      · intro k hk
        by_contra hkv
        have : "environment key \x27" ++ k ++ "\x27" ∈ invalidEntries env_keys unset_vars :=
          (mem_invalidEntries ..).mpr
            (Or.inl ⟨k, hk, Bool.eq_false_iff.mpr hkv, rfl⟩)
        rw [hnil] at this
        simp at this
      · intro u hu
        by_contra huv
        have : "unset entry \x27" ++ u ++ "\x27" ∈ invalidEntries env_keys unset_vars :=
          (mem_invalidEntries ..).mpr
            (Or.inr ⟨u, hu, Bool.eq_false_iff.mpr huv, rfl⟩)
        rw [hnil] at this
        simp at this
    · intro _
      trivial
  | false =>
    simp only [he, if_false]
    constructor
    · intro h
      exact Except.noConfusion h
    · intro h
      exfalso
      have hne : invalidEntries env_keys unset_vars ≠ [] := by
        intro hh
        rw [hh] at he
        simp at he
      rcases List.exists_mem_of_ne_nil _ hne with ⟨s, hs⟩
      rcases (mem_invalidEntries ..).mp hs with ⟨k, hk, hkv, _⟩ | ⟨u, hu, huv, _⟩
      · rw [h.1 k hk] at hkv
        simp at hkv
      · rw [h.2 u hu] at huv
        simp at huv

theorem char_isAlpha_iff (c : Char) :
    c.isAlpha = true ↔ (('A' ≤ c ∧ c ≤ 'Z') ∨ ('a' ≤ c ∧ c ≤ 'z')) := by
  simp [Char.isAlpha, Char.isUpper, Char.isLower, Char.le_def]

theorem char_isAlphanum_iff (c : Char) :
    c.isAlphanum = true ↔
      (('A' ≤ c ∧ c ≤ 'Z') ∨ ('a' ≤ c ∧ c ≤ 'z') ∨ ('0' ≤ c ∧ c ≤ '9')) := by
  simp [Char.isAlphanum, Char.isAlpha, Char.isUpper, Char.isLower, Char.isDigit,
    Char.le_def, or_assoc]

theorem valid_name_iff (n : String) :
    is_valid_env_var_name n = true ↔ SpecValidEnvName n := by
  unfold is_valid_env_var_name SpecValidEnvName
  cases hd : n.data with
  | nil =>
    simp
  | cons c cs =>
    simp only [Bool.and_eq_true, Bool.or_eq_true, List.all_eq_true, beq_iff_eq]
    constructor
    · rintro ⟨h1, h2⟩
      refine ⟨c, cs, rfl, ?_, ?_⟩
      · rcases h1 with h1 | h1
        · rcases (char_isAlpha_iff c).mp h1 with h | h
          · exact Or.inl h
          · exact Or.inr (Or.inl h)
        · exact Or.inr (Or.inr h1)
      · intro ch hch
        rcases h2 ch hch with h | h
        · rcases (char_isAlphanum_iff ch).mp h with h | h | h
          · exact Or.inl h
          · exact Or.inr (Or.inl h)
          · exact Or.inr (Or.inr (Or.inl h))
        · exact Or.inr (Or.inr (Or.inr h))
    · rintro ⟨c2, cs2, heq, h1, h2⟩
      rw [List.cons.injEq] at heq
      obtain ⟨rfl, rfl⟩ := heq
      refine ⟨?_, ?_⟩
      · rcases h1 with h | h | h
        · exact Or.inl ((char_isAlpha_iff c).mpr (Or.inl h))
        · exact Or.inl ((char_isAlpha_iff c).mpr (Or.inr h))
        · exact Or.inr h
      · intro ch hch
        rcases h2 ch hch with h | h | h | h
        · exact Or.inl ((char_isAlphanum_iff ch).mpr (Or.inl h))
        · exact Or.inl ((char_isAlphanum_iff ch).mpr (Or.inr (Or.inl h)))
        · exact Or.inl ((char_isAlphanum_iff ch).mpr (Or.inr (Or.inr h)))
        · exact Or.inr h

theorem build_args_foldl (l : List (String × OptionValue)) :
    ∀ init : List String,
      l.foldl (fun args kv =>
        match kv.2 with
        | OptionValue.Bool true => args ++ ["--" ++ kv.1]
        | OptionValue.Bool false => args
        | OptionValue.Int n => args ++ ["--" ++ kv.1, toString n]
        | OptionValue.String s => args ++ ["--" ++ kv.1, s]) init
      = init ++ l.flatMap argTokens := by
  induction l with
  | nil => intro init; simp
  | cons kv rest ih =>
    intro init
    obtain ⟨k, v⟩ := kv
    rw [List.foldl_cons]
    cases v with
    | Bool b => cases b <;> simp [argTokens, ih, List.flatMap_cons]
    | Int n => simp [argTokens, ih, List.flatMap_cons]
    | String s => simp [argTokens, ih, List.flatMap_cons]

theorem length_filterMap_eq_countP {α β : Type} (f : α → Option β) :
    ∀ l : List α, (l.filterMap f).length = l.countP (fun a => (f a).isSome) := by
  intro l
  induction l with
  | nil => rfl
  | cons a l ih =>
    rw [List.filterMap_cons, List.countP_cons]
    cases hf : f a <;> simp [hf, ih]

theorem pairwise_filterMap_of_fst {β : Type} (f : String → Option (String × β))
    (hf : ∀ n e, f n = some e → e.1 = n) :
    ∀ {l : List String}, l.Pairwise (fun a b => strLe a b = true) →
      (l.filterMap f).Pairwise (fun a b => strLe a.1 b.1 = true) := by
  intro l
  induction l with
  | nil => intro _; simp
  | cons a l ih =>
    intro hp
    rw [List.filterMap_cons]
    rcases List.pairwise_cons.mp hp with ⟨ha, hl⟩
    cases hfa : f a with
    | none => exact ih hl
    | some e =>
      refine List.pairwise_cons.mpr ⟨?_, ih hl⟩
      intro e2 he2
      rcases List.mem_filterMap.mp he2 with ⟨n, hn, hfn⟩
      rw [hf a e hfa, hf n e2 hfn]
      exact ha n hn

/-- C1 (counterexample): for the concrete profile with empty user environment,
empty unset list, use_hdr=false and use_wsi=false, environment() does NOT return
the eight pairs claimed (with PROTON_ADD_CONFIG=sdlinput,wayland); the pair it
actually contains is PROTON_ADD_CONFIG=sdlinput,wayland,hdr. -/
theorem c1_base_env_counterexample :
    pC1.environment ≠
      [("AMD_VULKAN_ICD", "RADV"),
       ("DISABLE_LAYER_AMD_SWITCHABLE_GRAPHICS_1", "1"),
       ("DISABLE_LAYER_NV_OPTIMUS_1", "1"),
       ("GAMESCOPE_WAYLAND_DISPLAY", "gamescope-0"),
       ("PROTON_ADD_CONFIG", "sdlinput,wayland"),
       ("PROTON_ENABLE_WAYLAND", "1"),
       ("RADV_PERFTEST", "aco"),
       ("SDL_VIDEODRIVER", "wayland")]
  ∧ ("PROTON_ADD_CONFIG", "sdlinput,wayland,hdr") ∈ pC1.environment := by
  decide

/-- C1 (amended): for every profile with empty user environment, empty unset
list, use_hdr=false and use_wsi=false, environment() returns exactly the eight
base pairs, with PROTON_ADD_CONFIG=sdlinput,wayland,hdr (not sdlinput,wayland). -/
theorem c1_base_env_amended (nm mn bin : String) (opts : List (String × OptionValue)) :
    ResolvedProfile.environment
      { name := nm, monitor_name := mn, binary := bin, use_hdr := false,
        use_wsi := false, options := opts, user_env := [], unset_vars := [] }
      = [("AMD_VULKAN_ICD", "RADV"),
         ("DISABLE_LAYER_AMD_SWITCHABLE_GRAPHICS_1", "1"),
         ("DISABLE_LAYER_NV_OPTIMUS_1", "1"),
         ("GAMESCOPE_WAYLAND_DISPLAY", "gamescope-0"),
         ("PROTON_ADD_CONFIG", "sdlinput,wayland,hdr"),
         ("PROTON_ENABLE_WAYLAND", "1"),
         ("RADV_PERFTEST", "aco"),
         ("SDL_VIDEODRIVER", "wayland")] :=
  rfl

/-- C2: for every resolved profile and every name in its unset_vars, the
sequence returned by environment() contains no pair with that name, regardless
of which layer (base, user, WSI/HDR) introduced it. -/
theorem c2_unset_always_wins (p : ResolvedProfile) (n : String)
    (hn : n ∈ p.unset_vars) (v : String) : (n, v) ∉ p.environment := by
  intro hmem
  simp only [ResolvedProfile.environment] at hmem
  rw [(sortPairs_perm _).mem_iff] at hmem
  exact not_mem_foldl_remove_of_mem hn v hmem

/-- C2 witness: a profile unsetting SDL_VIDEODRIVER has no such pair. -/
theorem c2_unset_always_wins_witness :
    ("SDL_VIDEODRIVER", "wayland") ∉ pUnset.environment :=
  c2_unset_always_wins pUnset "SDL_VIDEODRIVER" (by decide) "wayland"

/-- C3: needs_hdr_workaround() is true iff the merged option backend has string
form wayland AND use_wsi AND use_hdr; in the seven other combinations it is
false. -/
theorem c3_hdr_workaround_iff (p : ResolvedProfile) :
    p.needs_hdr_workaround = true ↔
      ((∃ v, List.lookup "backend" p.options = some v ∧ optValueToString v = "wayland")
        ∧ p.use_wsi = true ∧ p.use_hdr = true) := by
  unfold ResolvedProfile.needs_hdr_workaround
  cases h : List.lookup "backend" p.options with
  | none => simp [h]
  | some v => simp [h, and_assoc]

/-- C4: argument derivation walks the merged options sorted by key, emitting
--key for Bool(true), nothing for Bool(false), --key value for Int/String, and
appends the three HDR flags after the sorted tokens exactly when use_hdr; the
example options a:true, b:false, c:5, d:"x" yield argv --a --c 5 --d x. -/
theorem c4_argument_derivation :
    (∀ (p : ResolvedProfile) (child : List String),
        (build p child).args =
          (sortPairs p.options).flatMap argTokens
            ++ (if p.use_hdr then hdrFlags else []))
  ∧ build_args exampleC4 = ["--a", "--c", "5", "--d", "x"]
  ∧ (build exampleC4hdr []).args
      = ["--a", "--c", "5", "--d", "x", "--hdr-enabled", "--hdr-debug-force-output",
         "--hdr-debug-force-support"] := by
  refine ⟨?_, by decide, by decide⟩
  intro p child
  show (build p child).args = _
  unfold build build_args
  cases hh : p.use_hdr <;> simp [hh, build_args_foldl, hdrFlags]

/-- C8: a name is accepted exactly when non-empty, starting with an ASCII
letter or underscore and continuing with ASCII letters, digits or underscores;
validation succeeds iff all environment keys and unset entries are valid, and
the aggregated invalid list names every invalid environment key and every
invalid unset entry (not just the first). -/
theorem c8_env_name_validation (pn : String) (env_keys unset_vars : List String) :
    (∀ n, is_valid_env_var_name n = true ↔ SpecValidEnvName n)
  ∧ (validate_env_var_names pn env_keys unset_vars = Except.ok () ↔
      (∀ k ∈ env_keys, is_valid_env_var_name k = true)
      ∧ (∀ u ∈ unset_vars, is_valid_env_var_name u = true))
  ∧ (∀ s, s ∈ invalidEntries env_keys unset_vars ↔
      (∃ k, k ∈ env_keys ∧ is_valid_env_var_name k = false
          ∧ s = "environment key \x27" ++ k ++ "\x27")
      ∨ (∃ u, u ∈ unset_vars ∧ is_valid_env_var_name u = false
          ∧ s = "unset entry \x27" ++ u ++ "\x27")) :=
  ⟨valid_name_iff, validate_ok_iff pn env_keys unset_vars,
   fun s => mem_invalidEntries env_keys unset_vars s⟩

/-- C5: for every monitor, the base options are exactly backend=sdl,
fade-out-duration=200, fullscreen=true, immediate-flips=true,
nested-refresh=refresh, output-height=height, output-width=width, rt=true,
plus adaptive-sync=true present iff the monitor has vrr; no other key occurs. -/
theorem c5_base_options_exact (m : MonitorDef) :
    List.lookup "backend" (base_options m) = some (OptionValue.String "sdl")
  ∧ List.lookup "fade-out-duration" (base_options m) = some (OptionValue.Int 200)
  ∧ List.lookup "fullscreen" (base_options m) = some (OptionValue.Bool true)
  ∧ List.lookup "immediate-flips" (base_options m) = some (OptionValue.Bool true)
  ∧ List.lookup "nested-refresh" (base_options m)
      = some (OptionValue.Int (Int.ofNat m.refreshRate))
  ∧ List.lookup "output-height" (base_options m)
      = some (OptionValue.Int (Int.ofNat m.height))
  ∧ List.lookup "output-width" (base_options m)
      = some (OptionValue.Int (Int.ofNat m.width))
  ∧ List.lookup "rt" (base_options m) = some (OptionValue.Bool true)
  ∧ List.lookup "adaptive-sync" (base_options m)
      = (if m.vrr then some (OptionValue.Bool true) else none)
  ∧ (∀ k v, (k, v) ∈ base_options m → k ∈ "adaptive-sync" :: baseOptionKeys) := by
  obtain ⟨w, h, r, vrr, hdr, prim⟩ := m
  cases vrr
  case false =>
    refine ⟨rfl, rfl, rfl, rfl, rfl, rfl, rfl, rfl, rfl, ?_⟩
    intro k v hm
    have hk : k ∈ (["rt", "output-width", "output-height", "nested-refresh",
        "immediate-flips", "fullscreen", "fade-out-duration", "backend"] :
        List String) :=
      List.mem_map_of_mem Prod.fst hm
    simp only [baseOptionKeys, List.mem_cons, List.not_mem_nil, or_false] at hk ⊢
    tauto
  case true =>
    refine ⟨rfl, rfl, rfl, rfl, rfl, rfl, rfl, rfl, rfl, ?_⟩
    intro k v hm
    have hk : k ∈ (["adaptive-sync", "rt", "output-width", "output-height",
        "nested-refresh", "immediate-flips", "fullscreen", "fade-out-duration",
        "backend"] : List String) :=
      List.mem_map_of_mem Prod.fst hm
    simp only [baseOptionKeys, List.mem_cons, List.not_mem_nil, or_false] at hk ⊢
    tauto

/-- C5 witness: at the fixture monitor, backend resolves to sdl, and the
closure conjunct applies to the concrete pair (rt, true). -/
theorem c5_base_options_exact_witness :
    List.lookup "backend" (base_options mW) = some (OptionValue.String "sdl")
  ∧ ("rt" : String) ∈ "adaptive-sync" :: baseOptionKeys :=
  ⟨(c5_base_options_exact mW).1,
   (c5_base_options_exact mW).2.2.2.2.2.2.2.2.2 "rt" (OptionValue.Bool true)
     (by decide)⟩

/-- C6: for every successfully resolved profile, use_hdr is the profile's
useHDR when given, else the resolved monitor's hdr flag; use_wsi is the
profile's useWSI when given, else true. -/
theorem c6_hdr_wsi_defaults (c : Config) (nm : String) (d : ProfileDef)
    (p : ResolvedProfile) (hget : c.profiles.get nm = Except.ok d)
    (hres : c.resolve_profile nm = Except.ok p) :
    (∀ b, d.use_hdr = some b → p.use_hdr = b)
  ∧ (d.use_hdr = none →
      ∃ m, (p.monitor_name, m) ∈ c.monitors.monitors ∧ p.use_hdr = m.hdr)
  ∧ (∀ b, d.use_wsi = some b → p.use_wsi = b)
  ∧ (d.use_wsi = none → p.use_wsi = true) := by
  obtain ⟨d2, mn, m, hget2, hmon, hp⟩ := resolve_profile_ok hres
  rw [hget] at hget2
  have hd : d = d2 := by
    rw [Except.ok.injEq] at hget2
    exact hget2
  subst hd
  subst hp
  refine ⟨?_, ?_, ?_, ?_⟩
  · intro b hb
    show d.use_hdr.getD m.hdr = b
    rw [hb]
    rfl
  · intro hb
    refine ⟨m, resolved_monitor_mem hmon, ?_⟩
    show d.use_hdr.getD m.hdr = m.hdr
    rw [hb]
    rfl
  · intro b hb
    show d.use_wsi.getD true = b
    rw [hb]
    rfl
  · intro hb
    show d.use_wsi.getD true = true
    rw [hb]
    rfl

/-- C6 witness: the fixture profile omits useWSI, so the resolved use_wsi is
true. -/
theorem c6_hdr_wsi_defaults_witness : pW.use_wsi = true :=
  (c6_hdr_wsi_defaults cfgW "p" dW pW (by decide) (by decide)).2.2.2 (by decide)

/-- C9: every successfully resolved profile keeps all eight base option keys
(profile overlay can replace values but never removes a key); in particular the
backend lookup inside needs_hdr_workaround never falls into the missing-key
default. -/
theorem c9_base_keys_preserved (c : Config) (nm : String) (p : ResolvedProfile)
    (hres : c.resolve_profile nm = Except.ok p) :
    (∀ k ∈ baseOptionKeys, ∃ v, (k, v) ∈ p.options)
  ∧ (List.lookup "backend" p.options).isSome = true := by
  obtain ⟨d, mn, m, hget, hmon, hp⟩ := resolve_profile_ok hres
  subst hp
  have hpresent : ∀ k ∈ baseOptionKeys,
      ∃ v, (k, v) ∈ d.options.foldl (fun o kv => insertKV o kv.1 kv.2)
        (base_options m) := by
    intro k hk
    apply key_present_foldl_insert
    obtain ⟨v, hv⟩ := Option.isSome_iff_exists.mp (base_key_lookup m k hk)
    exact ⟨v, mem_of_lookup hv⟩
  refine ⟨hpresent, ?_⟩
  obtain ⟨v, hv⟩ := hpresent "backend" (by decide)
  exact lookup_isSome_of_mem hv

/-- C9 witness: the fixture resolved profile has a backend option. -/
theorem c9_base_keys_preserved_witness :
    (List.lookup "backend" pW.options).isSome = true :=
  (c9_base_keys_preserved cfgW "p" pW (by decide)).2

/-- C7 (counterexample): a configuration whose only profile cannot resolve
(no monitor named, no primary monitor) is listed with zero entries although one
profile is configured — the resolution failure is silently swallowed. -/
theorem c7_list_profiles_counterexample :
    cfgBad.list_profiles.length ≠ cfgBad.profiles.profiles.length := by
  decide

/-- C7 (amended): the list operation produces one (name, monitor=X HDR=Y WSI=Z
summary) entry per profile that resolves successfully, sorted lexicographically
by name; profiles whose resolution fails are silently omitted, so the number of
entries equals the number of successfully resolving profile names. -/
theorem c7_list_profiles_amended (c : Config) :
    (∀ e, e ∈ c.list_profiles ↔
        ∃ n p, n ∈ c.profiles.names ∧ c.resolve_profile n = Except.ok p
          ∧ e = (p.name, profileSummary p))
  ∧ c.list_profiles.length
      = c.profiles.names.countP (fun n => (c.resolve_profile n).toOption.isSome)
  ∧ c.list_profiles.Pairwise (fun a b => strLe a.1 b.1 = true) := by
  refine ⟨?_, ?_, ?_⟩
  · intro e
    unfold Config.list_profiles
    rw [List.mem_filterMap]
    constructor
    · rintro ⟨n, hn, hf⟩
      cases hr : c.resolve_profile n with
      | ok p =>
        simp only [hr, Option.some.injEq] at hf
        exact ⟨n, p, hn, hr, hf.symm⟩
      | error err => simp [hr] at hf
    · rintro ⟨n, p, hn, hr, rfl⟩
      exact ⟨n, hn, by simp [hr]⟩
  · unfold Config.list_profiles
    rw [length_filterMap_eq_countP]
    have hpred : (fun n => (match c.resolve_profile n with
        | Except.ok p => some (p.name, profileSummary p)
        | Except.error _ => (none : Option (String × String))).isSome)
        = (fun n => (c.resolve_profile n).toOption.isSome) := by
      funext n
      cases hr : c.resolve_profile n <;> simp [hr, Except.toOption]
    rw [hpred]
  · unfold Config.list_profiles
    apply pairwise_filterMap_of_fst
    · intro n e hfe
      cases hr : c.resolve_profile n with
      | error err => simp [hr] at hfe
      | ok q =>
        simp only [hr, Option.some.injEq] at hfe
        obtain ⟨d, mn, m, _, _, hq⟩ := resolve_profile_ok hr
        rw [← hfe]
        rw [hq]
    · exact names_sorted c.profiles

/-- C7 witness: in the fixture configuration, profile p is listed with its
summary. -/
theorem c7_list_profiles_amended_witness :
    ("p", "monitor=main HDR=true WSI=true") ∈ cfgW.list_profiles :=
  ((c7_list_profiles_amended cfgW).1 _).mpr
    ⟨"p", pW, by decide, by decide, by decide⟩

/-- C10 (counterexample): in the profile whose user environment overrides the
base variable SDL_VIDEODRIVER while unset_vars also lists it, no pair with that
name appears at all — not exactly one with the user value, as claimed. -/
theorem c10_environment_counterexample :
    ("SDL_VIDEODRIVER", "x") ∈ pC10bad.user_env
  ∧ "SDL_VIDEODRIVER" ∈ keys BASE_ENV
  ∧ pC10bad.environment.countP (fun q => q.1 == "SDL_VIDEODRIVER") = 0 := by
  decide

/-- C10 (amended): every environment() output has pairwise distinct names in
strictly increasing lexicographic order; and when a user environment entry
shares a name with a base entry and that name is NOT listed in unset_vars,
exactly one pair with that name appears and its value is the user value. -/
theorem c10_environment_sorted_amended (p : ResolvedProfile) :
    p.environment.Pairwise (fun a b => strLt a.1 b.1 = true)
  ∧ (∀ n v, (keys p.user_env).Nodup → (n, v) ∈ p.user_env → n ∈ keys BASE_ENV →
      n ∉ p.unset_vars →
      (n, v) ∈ p.environment ∧ ∀ w, (n, w) ∈ p.environment → w = v) := by
  simp only [ResolvedProfile.environment]
  set env1 := p.user_env.foldl (fun acc kv => insertKV acc kv.1 kv.2) BASE_ENV
    with henv1
  set env2 := if p.use_wsi then insertKV env1 "ENABLE_GAMESCOPE_WSI" "1" else env1
    with henv2
  set env3 := if p.use_hdr then
      insertKV (insertKV (insertKV env2 "DXVK_HDR" "1") "ENABLE_HDR_WSI" "1")
        "PROTON_ENABLE_HDR" "1"
    else env2 with henv3
  set env4 := p.unset_vars.foldl (fun acc n => removeKV acc n) env3 with henv4
  have h1nd : (keys env1).Nodup := by
    rw [henv1]
    exact nodupKeys_foldl_insert _ (by decide)
  have h2nd : (keys env2).Nodup := by
    rw [henv2]
    cases p.use_wsi
    · exact h1nd
    · exact nodupKeys_insertKV _ _ h1nd
  have h3nd : (keys env3).Nodup := by
    rw [henv3]
    cases p.use_hdr
    · exact h2nd
    · exact nodupKeys_insertKV _ _ (nodupKeys_insertKV _ _ (nodupKeys_insertKV _ _ h2nd))
  have h4nd : (keys env4).Nodup := by
    rw [henv4]
    exact nodupKeys_foldl_remove _ h3nd
  have hperm : (sortPairs env4).Perm env4 := sortPairs_perm env4
  have hnd : (keys (sortPairs env4)).Nodup :=
    ((hperm.map Prod.fst).symm).nodup h4nd
  constructor
  · have hs : (sortPairs env4).Pairwise (fun a b => strLe a.1 b.1 = true) :=
      sortPairs_sorted env4
    have hne : (sortPairs env4).Pairwise (fun a b => a.1 ≠ b.1) :=
      List.pairwise_map.mp hnd
    exact (hs.and hne).imp (fun hab => strLt_of_strLe_of_ne hab.1 hab.2)
  · intro n v hu hmem hbase hunset
    have hne_wsi : n ≠ "ENABLE_GAMESCOPE_WSI" := ne_of_mem_of_not_mem hbase (by decide)
    have hne_d : n ≠ "DXVK_HDR" := ne_of_mem_of_not_mem hbase (by decide)
    have hne_e : n ≠ "ENABLE_HDR_WSI" := ne_of_mem_of_not_mem hbase (by decide)
    have hne_p : n ≠ "PROTON_ENABLE_HDR" := ne_of_mem_of_not_mem hbase (by decide)
    have hm1 : (n, v) ∈ env1 := by
      rw [henv1]
      exact mem_foldl_insert_of_mem hu hmem
    have hm2 : (n, v) ∈ env2 := by
      rw [henv2]
      cases p.use_wsi
      · exact hm1
      · exact mem_insertKV_of_ne _ hm1 hne_wsi
    have hm3 : (n, v) ∈ env3 := by
      rw [henv3]
      cases p.use_hdr
      · exact hm2
      · exact mem_insertKV_of_ne _
          (mem_insertKV_of_ne _ (mem_insertKV_of_ne _ hm2 hne_d) hne_e) hne_p
    have hm4 : (n, v) ∈ env4 := by
      rw [henv4]
      exact mem_foldl_remove_of_not_mem hunset hm3
    refine ⟨hperm.mem_iff.mpr hm4, ?_⟩
    intro w hw
    exact mem_unique_of_nodupKeys h4nd (hperm.mem_iff.mp hw) hm4

/-- C10 witness: a user-environment override of the base SDL_VIDEODRIVER entry
appears in the output when the name is not unset. -/
theorem c10_environment_sorted_amended_witness :
    ("SDL_VIDEODRIVER", "custom") ∈ pC10w.environment :=
  ((c10_environment_sorted_amended pC10w).2 "SDL_VIDEODRIVER" "custom"
    (by decide) (by decide) (by decide) (by decide)).1
